import Mathlib

/-!
Shallow embedding of the email-routing repository's mailbox-watching core
(`zoho_smart_processing.py`, `zoho_idel.py`, `zoho_faiss.py`,
`gmail_auto_reply_with_faiss.py`) together with proofs about the embedded
definitions.  Machine arithmetic on intervals (Python floats) is modelled
over `ℚ`; the external embedding model and the FAISS index are modelled as
parameters (an `encode` function and a fixed list of template embedding
vectors) with exact nearest-neighbour search by squared L2 distance.
-/

namespace EmailRouting

/-! ## AdaptiveScheduler: `ZohoSmartPollingProcessor.adjust_polling_interval`
(`zoho_smart_processing.py` lines 201-214).  The mutable fields touched by
the method are `current_interval` and `last_email_time`; the bounds
`min_interval` / `max_interval` are fixed at construction. -/

/-- The polling state mutated by `adjust_polling_interval`:
`current_interval` and `last_email_time` (a timestamp in seconds). -/
structure PollingState where
  currentInterval : ℚ
  lastEmailTime : ℚ
deriving Repr, DecidableEq

/-- One call of `adjust_polling_interval(found_emails)` at wall-clock time
`now` (seconds).  Mirrors `zoho_smart_processing.py` lines 201-214:
if emails were found, halve the interval (clamped below by `minInterval`)
and stamp `last_email_time`; otherwise, if more than 600 seconds passed
since the last activity, multiply the interval by 1.2 (clamped above by
`maxInterval`); otherwise leave the state unchanged. -/
def adjustPollingInterval (minInterval maxInterval : ℚ) (foundEmails : Bool)
    (now : ℚ) (s : PollingState) : PollingState :=
  if foundEmails then
    { currentInterval := max minInterval (s.currentInterval * (1 / 2)),
      lastEmailTime := now }
  else if now - s.lastEmailTime > 600 then
    { currentInterval := min maxInterval (s.currentInterval * (6 / 5)),
      lastEmailTime := s.lastEmailTime }
  else
    s

/-- Constructor defaults (`zoho_smart_processing.py` lines 28-30). -/
def defaultMinInterval : ℚ := 10

/-- Constructor default for the maximal interval (line 30). -/
def defaultMaxInterval : ℚ := 300

/-- Constructor default for the starting interval (line 28). -/
def defaultStartInterval : ℚ := 60

/-! ## ReplyComposer: the headers built by `save_reply_as_draft`
(`zoho_smart_processing.py` lines 98-110, identically `zoho_idel.py`
lines 95-110 and `zoho_faiss.py` lines 201-216). -/

/-- The fields of a source message that reply composition reads. -/
structure OrigEmail where
  subject : String
  sender : String
  messageId : String
deriving Repr, DecidableEq

/-- The headers and body of the composed draft reply. -/
structure DraftReply where
  fromAddr : String
  toAddr : String
  subject : String
  inReplyTo : Option String
  references : Option String
  body : String
deriving Repr, DecidableEq

/-- The reply message assembled by `save_reply_as_draft` before the IMAP
append (`zoho_smart_processing.py` lines 101-110): the subject is the
f-string `"Re: {original_email['subject']}"` unconditionally, and the
threading headers are set only when `message_id` is a non-empty string
(Python truthiness). -/
def composeReply (selfAddr : String) (o : OrigEmail) (replyBody : String) :
    DraftReply :=
  { fromAddr := selfAddr
    toAddr := o.sender
    subject := "Re: " ++ o.subject
    inReplyTo := if o.messageId ≠ "" then some o.messageId else none
    references := if o.messageId ≠ "" then some o.messageId else none
    body := replyBody }

/-! ## Dispatcher queue: `queue.Queue()` semantics
(`zoho_smart_processing.py` line 31 creates the queue, lines 249-251
enqueue each fetched message).  Python's `queue.Queue(maxsize)` blocks a
`put` exactly when `0 < maxsize` and the queue already holds `maxsize`
items; `maxsize = 0` (the default used by the code) means unbounded. -/

/-- A Python `queue.Queue`: a capacity (`0` = unbounded) and its items. -/
structure PyQueue (α : Type) where
  maxsize : Nat
  items : List α
deriving Repr

/-- Whether a `put` on the queue would block (Python `queue.Queue.put`
semantics: block only when `maxsize` is positive and reached). -/
def PyQueue.putBlocks {α : Type} (q : PyQueue α) : Bool :=
  decide (0 < q.maxsize ∧ q.maxsize ≤ q.items.length)

/-- A non-blocking `put` appends the item at the tail. -/
def PyQueue.put {α : Type} (q : PyQueue α) (x : α) : PyQueue α :=
  { q with items := q.items ++ [x] }

/-- The queue the processor constructs: `self.email_queue = queue.Queue()`
(`zoho_smart_processing.py` line 31) — no `maxsize` argument, so 0. -/
def emailQueueInit : PyQueue Nat :=
  { maxsize := 0, items := [] }

/-- The enqueue loop of `smart_polling_loop` (lines 250-251): one `put`
per fetched message. -/
def enqueueAll {α : Type} (q : PyQueue α) : List α → PyQueue α
  | [] => q
  | x :: xs => enqueueAll (q.put x) xs

/-! ## Worker and polling loop control flow
(`zoho_smart_processing.py` lines 216-236 and 238-267). -/

/-- What one `email_queue.get(timeout=1)` round of the worker observes. -/
inductive GetOutcome
  | sentinel                 -- the `None` shutdown signal (line 221)
  | item (saveOk : Bool)     -- a message; `saveOk` = draft append succeeded
  | emptyTimeout             -- `queue.Empty` after the 1s timeout (line 233)
  | raised                   -- any other exception (line 235)
deriving Repr, DecidableEq

/-- Whether a loop iteration continues or exits the loop. -/
inductive LoopCmd
  | continueLoop
  | exitLoop
deriving Repr, DecidableEq

/-- Control flow of one `email_processor_worker` iteration
(`zoho_smart_processing.py` lines 216-236): only the `None` sentinel
breaks the loop; a failed draft save is logged (line 229) and the loop
continues; `queue.Empty` and any other exception also continue. -/
def workerStep : GetOutcome → LoopCmd
  | .sentinel => .exitLoop
  | .item _ => .continueLoop
  | .emptyTimeout => .continueLoop
  | .raised => .continueLoop

/-- Control flow of one `smart_polling_loop` iteration
(lines 242-267): on an exception the loop logs, sleeps 30 seconds and
retries; on a normal cycle it sleeps the scheduled time.  The returned
number is the extra error-path wait in seconds. -/
def pollStep (errOccurred : Bool) : LoopCmd × Nat :=
  if errOccurred then (.continueLoop, 30) else (.continueLoop, 0)

/-! ## `save_reply_as_draft` folder handling
(`zoho_smart_processing.py` lines 112-138, `zoho_faiss.py` lines 218-246),
modelled under CPython `imaplib` semantics: `select` and `append` return a
`NO` status for a missing mailbox WITHOUT raising (only `BAD` raises), so
the `try/except` ladder around the selects is dead code — the fallback
`select('DRAFT')` is never issued — and execution always reaches
`mail.append('Drafts', ...)` (line 127 resp. 235), whose target is the
literal string `'Drafts'`.  APPEND is legal in the AUTH state and succeeds
exactly when the `Drafts` mailbox exists.  When `select('Drafts')`
returned `NO` the connection never left the AUTH state, so the following
`close()` raises client-side; the outer `except` swallows it and the
function returns `False`. -/

/-- Observable outcome of one `save_reply_as_draft` call over a mailbox
whose existing folders are `folders`: the returned boolean, the folder a
draft was actually stored in (if any), and whether an APPEND command was
issued on the session. -/
structure SaveOutcome where
  ok : Bool
  appendedTo : Option String
  attemptedAppend : Bool
deriving Repr, DecidableEq

/-- Folder handling of `save_reply_as_draft`
(`zoho_smart_processing.py` lines 116-138) under `imaplib` semantics:
`select('Drafts')` returns a status and does not raise on a missing
mailbox, so the except ladder (with its `select('DRAFT')` fallback and
early return) never runs, and `append('Drafts', ...)` is attempted
unconditionally.  With `Drafts` present the append succeeds and
`close`/`logout`/`return True` follow; with `Drafts` absent the append
returns `NO` (ignored by the code), the `close()` on the never-selected
connection raises, and the outer `except` returns `False` — no draft is
stored anywhere, whether or not a `DRAFT` folder exists. -/
def saveReplyAsDraft (folders : List String) : SaveOutcome :=
  if "Drafts" ∈ folders then
    { ok := true, appendedTo := some "Drafts", attemptedAppend := true }
  else
    { ok := false, appendedTo := none, attemptedAppend := true }

/-! ## ChangeDetector mode state machine: `ZohoEmailIdleProcessor.idle_loop`
(`zoho_idel.py` lines 181-256) together with `fallback_polling`
(lines 276-286).  The loop issues the IMAP IDLE command while in push
mode; when the server answer is not `+ idling` (IDLE unsupported), the
code calls `fallback_polling()` (line 245), whose own `while
self.running` loop polls every 30 seconds, catches every exception
internally (lines 284-286) and returns only when `running` becomes
false, after which the `break` on line 246 falls out of the outer loop
whose guard `while self.running` is then false.  So after the
`Unsupported` signal no further IDLE command is ever sent. -/

/-- Mode of the detector loop. -/
inductive DetState
  | pushWait       -- SESSION_READY / AWAITING_CHANGE: will issue IDLE
  | fallbackPoll   -- inside fallback_polling
  | stopped        -- running flag observed false
deriving Repr, DecidableEq

/-- What one detector cycle observes. -/
inductive DetEvent
  | changed        -- an EXISTS notification: drain, then re-arm IDLE
  | timedOut       -- 30s select timeout: NOOP keepalive, re-arm IDLE
  | unsupported    -- server answer to IDLE is not `+ idling`
  | protoError     -- any exception: reconnect (outer loop re-enters IDLE)
  | stopSignal     -- the running flag is cleared
deriving Repr, DecidableEq

/-- Mode transition of one detector cycle, read off `idle_loop`
(`zoho_idel.py` lines 181-256) and `fallback_polling` (lines 276-286):
push mode re-arms IDLE after a drain, a keepalive timeout or an error
(reconnect), switches to the fallback on `unsupported`, and the fallback
absorbs every event except the stop signal. -/
def detStep : DetState → DetEvent → DetState
  | .pushWait, .changed => .pushWait
  | .pushWait, .timedOut => .pushWait
  | .pushWait, .unsupported => .fallbackPoll
  | .pushWait, .protoError => .pushWait
  | .pushWait, .stopSignal => .stopped
  | .fallbackPoll, .stopSignal => .stopped
  | .fallbackPoll, _ => .fallbackPoll
  | .stopped, _ => .stopped

/-- Whether a detector in this mode issues the store's await-change
primitive (the IDLE command) on its next cycle. -/
def issuesAwaitChange : DetState → Bool
  | .pushWait => true
  | .fallbackPoll => false
  | .stopped => false

/-! ## TemplateSelector: `select_template`
(`zoho_faiss.py` lines 180-190 and `gmail_auto_reply_with_faiss.py`
lines 134-141).  The external sentence-transformer model is a parameter
`enc`; the FAISS `IndexFlatL2` over the fixed template embeddings is
modelled as exact nearest-neighbour search by squared L2 distance with
ties broken by the lowest index, over a parameter list of embedding
vectors. -/

/-- Squared L2 distance between two vectors (what FAISS `IndexFlatL2`
ranks by). -/
def sqDist (a b : List ℚ) : ℚ :=
  (List.zipWith (fun x y => (x - y) ^ 2) a b).sum

/-- Index of the least element of a list, lowest index on ties —
the index FAISS `IndexFlatL2.search` with `k = 1` returns. -/
def argminIdx : List ℚ → Nat
  | [] => 0
  | [_] => 0
  | x :: y :: xs =>
    if (y :: xs).getD (argminIdx (y :: xs)) 0 < x then argminIdx (y :: xs) + 1
    else 0

/-- Python's `not email_body.strip()` test (`zoho_faiss.py` line 182):
true exactly when the body is empty or consists only of whitespace. -/
def isBlank (body : String) : Bool :=
  body.data.all Char.isWhitespace

/-- `select_template` of `zoho_faiss.py` (lines 180-190): an
empty-or-whitespace body short-circuits to `EMAIL_TEMPLATES[2]` (the
general-purpose default) without calling `model.encode`; otherwise the
body is encoded and the template at the FAISS-nearest index is returned. -/
def zohoSelectTemplate (enc : String → List ℚ) (templates : List String)
    (embs : List (List ℚ)) (body : String) : String :=
  if isBlank body then templates.getD 2 ""
  else templates.getD (argminIdx (embs.map (sqDist (enc body)))) ""

/-- `select_template` of `gmail_auto_reply_with_faiss.py`
(lines 134-141): no empty-body guard — the thread content is always
encoded and the nearest template returned. -/
def gmailSelectTemplate (enc : String → List ℚ) (templates : List String)
    (embs : List (List ℚ)) (body : String) : String :=
  templates.getD (argminIdx (embs.map (sqDist (enc body)))) ""

/-! ## Drain and deduplication: `get_new_emails`
(`zoho_smart_processing.py` lines 140-199) and the check-and-insert
pattern of `process_recent_emails` (`zoho_idel.py` lines 258-274).
Message ids (the decoded IMAP sequence ids) are strings; the dedup state
is the contents of `self.processed_emails`. -/

/-- What happens when the drain loop handles one message id. -/
inductive FOutcome
  | ok       -- fetch returns OK and parsing succeeds (lines 165-190)
  | fail     -- `status != 'OK'`: skipped without being marked (166-167)
  | raised   -- an exception: aborts the whole call (197-199)
deriving Repr, DecidableEq

/-- The per-id loop of `get_new_emails` (lines 160-191) threading the
dedup state: an id already in `processed_emails` is skipped (line 161);
a fetch with a non-OK status is skipped and NOT marked (lines 166-167);
a successful fetch appends the message to the result and adds the id to
`processed_emails` (lines 181-190); an exception aborts the whole call
while keeping the state mutations made so far — `none` marks the aborted
result list. -/
def drainGo (f : String → FOutcome) : List String → List String →
    List String × Option (List String)
  | s, [] => (s, some [])
  | s, i :: rest =>
    if i ∈ s then drainGo f s rest
    else
      match f i with
      | .fail => drainGo f s rest
      | .raised => (s, none)
      | .ok =>
        let p := drainGo f (i :: s) rest
        (p.1, p.2.map (fun l => i :: l))

/-- `get_new_emails`: final `processed_emails` state and the returned
message list; the `except` path returns `[]` (line 199) while the state
mutations persist. -/
def getNewEmails (f : String → FOutcome) (s ids : List String) :
    List String × List String :=
  let p := drainGo f s ids
  (p.1, p.2.getD [])

/-- The spec's `markIfNew(ref)`: atomic check-and-insert against the
processed set, the pattern at `zoho_idel.py` lines 269-271 and
`zoho_smart_processing.py` lines 161 and 190. -/
def markIfNew (ref : String) (s : List String) : Bool × List String :=
  if ref ∈ s then (false, s) else (true, ref :: s)

/-- A whole run: one `get_new_emails` per polling cycle (each cycle has
its own fetch outcomes and server-reported id list), threading
`processed_emails` through and concatenating everything handed to the
queue (`smart_polling_loop` lines 247-251). -/
def runDrains : List ((String → FOutcome) × List String) → List String →
    List String
  | [], _ => []
  | c :: rest, s =>
    let p := getNewEmails c.1 s c.2
    p.2 ++ runDrains rest p.1

/-- Fetch outcomes of a cycle in which handling id `b` raises and every
other fetch succeeds. -/
def raiseAt (b : String) : String → FOutcome :=
  fun r => if r = b then .raised else .ok

/-! ## Session actions on the exit paths of `get_new_emails`
(`zoho_smart_processing.py` lines 140-199) and of
`save_reply_as_draft` (`zoho_faiss.py` lines 201-246). -/

/-- The mail-store session operations the code issues. -/
inductive SessAct
  | login
  | selectFolder (name : String)
  | search
  | fetch (id : String)
  | appendMsg (folder : String)
  | close
  | logout
deriving Repr, DecidableEq

/-- Session actions of the per-id fetch loop (lines 160-191), together
with whether the loop aborted with an exception. -/
def fetchActs (f : String → FOutcome) : List String → List String →
    List SessAct × Bool
  | _, [] => ([], false)
  | s, i :: rest =>
    if i ∈ s then fetchActs f s rest
    else
      match f i with
      | .fail =>
        let p := fetchActs f s rest
        (SessAct.fetch i :: p.1, p.2)
      | .raised => ([SessAct.fetch i], true)
      | .ok =>
        let p := fetchActs f (i :: s) rest
        (SessAct.fetch i :: p.1, p.2)

/-- The exit-path classes of one `get_new_emails` call. -/
inductive GNEScenario
  | connectFail                                -- connect_imap returns None (142-144)
  | searchFail                                 -- search status != OK: return [] (153-155)
  | run (f : String → FOutcome) (ids : List String)  -- search OK (157-199)

/-- Session actions of one `get_new_emails` call: the happy path closes
and logs out (lines 193-194); the failed-search path (153-155) and the
exception path (197-199) return without either. -/
def getNewEmailsTrace : GNEScenario → List SessAct
  | .connectFail => []
  | .searchFail => [.login, .selectFolder "INBOX", .search]
  | .run f ids =>
    let p := fetchActs f [] ids
    [SessAct.login, SessAct.selectFolder "INBOX", SessAct.search] ++ p.1 ++
      (if p.2 then [] else [SessAct.close, SessAct.logout])

/-- Session actions of one `save_reply_as_draft` call in `zoho_faiss.py`
(lines 218-246) over a mailbox with the given folders: with `Drafts`
present the append succeeds and the session is closed and logged out
(238-239); with only `DRAFT` the fallback select succeeds but the append
to the literal `'Drafts'` raises and the outer `except` returns without
teardown; with neither folder line 232 returns `False` without teardown
(unlike `zoho_smart_processing.py` lines 123-124, which do close). -/
def saveDraftTraceFaiss (folders : List String) : List SessAct :=
  if "Drafts" ∈ folders then
    [.login, .selectFolder "Drafts", .appendMsg "Drafts", .close, .logout]
  else if "DRAFT" ∈ folders then
    [.login, .selectFolder "Drafts", .selectFolder "DRAFT", .appendMsg "Drafts"]
  else
    [.login, .selectFolder "Drafts", .selectFolder "DRAFT"]

end EmailRouting

namespace EmailRouting

/-! ## Helper lemmas -/

/-- `argminIdx` stays within the list. -/
theorem argminIdx_lt_length : ∀ (l : List ℚ), l ≠ [] → argminIdx l < l.length
  | [], h => absurd rfl h
  | [_], _ => by simp [argminIdx]
  | x :: y :: xs, _ => by
    have ih := argminIdx_lt_length (y :: xs) (by simp)
    have heq : argminIdx (x :: y :: xs) =
        if (y :: xs).getD (argminIdx (y :: xs)) 0 < x then argminIdx (y :: xs) + 1
        else 0 := rfl
    by_cases hlt : (y :: xs).getD (argminIdx (y :: xs)) 0 < x
    · rw [heq, if_pos hlt]
      simp only [List.length_cons] at ih ⊢
      omega
    · rw [heq, if_neg hlt]
      simp

/-- The element at `argminIdx` is a minimum of the list. -/
theorem argminIdx_min : ∀ (l : List ℚ) (j : Nat), j < l.length →
    l.getD (argminIdx l) 0 ≤ l.getD j 0
  | [], j, hj => by simp at hj
  | [a], j, hj => by
    cases j with
    | zero => simp [argminIdx]
    | succ k => simp only [List.length_cons, List.length_nil] at hj; omega
  | x :: y :: xs, j, hj => by
    have heq : argminIdx (x :: y :: xs) =
        if (y :: xs).getD (argminIdx (y :: xs)) 0 < x then argminIdx (y :: xs) + 1
        else 0 := rfl
    by_cases hlt : (y :: xs).getD (argminIdx (y :: xs)) 0 < x
    · rw [heq, if_pos hlt, List.getD_cons_succ]
      cases j with
      | zero =>
        rw [List.getD_cons_zero]
        exact le_of_lt hlt
      | succ k =>
        rw [List.getD_cons_succ]
        exact argminIdx_min (y :: xs) k
          (by simp only [List.length_cons] at hj ⊢; omega)
    · rw [heq, if_neg hlt, List.getD_cons_zero]
      cases j with
      | zero =>
        rw [List.getD_cons_zero]
      | succ k =>
        rw [List.getD_cons_succ]
        exact le_trans (le_of_not_lt hlt)
          (argminIdx_min (y :: xs) k
            (by simp only [List.length_cons] at hj ⊢; omega))

/-- Dedup-state membership survives the drain loop. -/
theorem drainGo_mem_fst (f : String → FOutcome) :
    ∀ (ids s : List String) (r : String), r ∈ s → r ∈ (drainGo f s ids).1 := by
  intro ids
  induction ids with
  | nil => intro s r h; simpa [drainGo] using h
  | cons i rest ih =>
    intro s r h
    by_cases hi : i ∈ s
    · simpa [drainGo, hi] using ih s r h
    · cases hf : f i with
      | fail => simpa [drainGo, hi, hf] using ih s r h
      | raised => simpa [drainGo, hi, hf] using h
      | ok => simpa [drainGo, hi, hf] using ih (i :: s) r (List.mem_cons_of_mem _ h)

/-- An id already in the dedup state is never handed out by a
(non-aborted) drain. -/
theorem drainGo_not_handed (f : String → FOutcome) :
    ∀ (ids s : List String) (r : String) (l : List String), r ∈ s →
      (drainGo f s ids).2 = some l → r ∉ l := by
  intro ids
  induction ids with
  | nil =>
    intro s r l _ hsome
    simp only [drainGo, Option.some.injEq] at hsome
    subst hsome
    simp
  | cons i rest ih =>
    intro s r l h hsome
    by_cases hi : i ∈ s
    · exact ih s r l h (by simpa [drainGo, hi] using hsome)
    · cases hf : f i with
      | fail => exact ih s r l h (by simpa [drainGo, hi, hf] using hsome)
      | raised => simp [drainGo, hi, hf] at hsome
      | ok =>
        have hsome2 : ((drainGo f (i :: s) rest).2.map (fun t => i :: t)) = some l := by
          simpa [drainGo, hi, hf] using hsome
        rcases hmap : (drainGo f (i :: s) rest).2 with _ | l2
        · rw [hmap] at hsome2; simp at hsome2
        · rw [hmap] at hsome2
          simp only [Option.map_some', Option.some.injEq] at hsome2
          have hr : r ∉ l2 := ih (i :: s) r l2 (List.mem_cons_of_mem _ h) hmap
          intro hmem
          rw [← hsome2] at hmem
          rcases List.mem_cons.mp hmem with hri | hrl2
          · exact hi (hri ▸ h)
          · exact hr hrl2

/-- Every id handed out by a drain is in the final dedup state. -/
theorem drainGo_handed_mem_fst (f : String → FOutcome) :
    ∀ (ids s : List String) (r : String) (l : List String),
      (drainGo f s ids).2 = some l → r ∈ l → r ∈ (drainGo f s ids).1 := by
  intro ids
  induction ids with
  | nil =>
    intro s r l hsome hr
    simp only [drainGo, Option.some.injEq] at hsome
    subst hsome
    simp at hr
  | cons i rest ih =>
    intro s r l hsome hr
    by_cases hi : i ∈ s
    · simp only [drainGo, if_pos hi] at hsome ⊢
      exact ih s r l hsome hr
    · cases hf : f i with
      | fail =>
        simp only [drainGo, if_neg hi, hf] at hsome ⊢
        exact ih s r l hsome hr
      | raised => simp [drainGo, hi, hf] at hsome
      | ok =>
        have hsome2 : ((drainGo f (i :: s) rest).2.map (fun t => i :: t)) = some l := by
          simpa [drainGo, hi, hf] using hsome
        have hfst : (drainGo f s (i :: rest)).1 = (drainGo f (i :: s) rest).1 := by
          simp [drainGo, hi, hf]
        rcases hmap : (drainGo f (i :: s) rest).2 with _ | l2
        · rw [hmap] at hsome2; simp at hsome2
        · rw [hmap] at hsome2
          simp only [Option.map_some', Option.some.injEq] at hsome2
          rw [hfst]
          rw [← hsome2] at hr
          rcases List.mem_cons.mp hr with hri | hrl2
          · exact hri ▸ drainGo_mem_fst f rest (i :: s) i (List.mem_cons_self i s)
          · exact ih (i :: s) r l2 hmap hrl2

/-- A single (non-aborted) drain hands out each id at most once. -/
theorem drainGo_count_le_one (f : String → FOutcome) :
    ∀ (ids s : List String) (r : String) (l : List String),
      (drainGo f s ids).2 = some l → l.count r ≤ 1 := by
  intro ids
  induction ids with
  | nil =>
    intro s r l hsome
    simp only [drainGo, Option.some.injEq] at hsome
    subst hsome
    simp
  | cons i rest ih =>
    intro s r l hsome
    by_cases hi : i ∈ s
    · exact ih s r l (by simpa [drainGo, hi] using hsome)
    · cases hf : f i with
      | fail => exact ih s r l (by simpa [drainGo, hi, hf] using hsome)
      | raised => simp [drainGo, hi, hf] at hsome
      | ok =>
        have hsome2 : ((drainGo f (i :: s) rest).2.map (fun t => i :: t)) = some l := by
          simpa [drainGo, hi, hf] using hsome
        rcases hmap : (drainGo f (i :: s) rest).2 with _ | l2
        · rw [hmap] at hsome2; simp at hsome2
        · rw [hmap] at hsome2
          simp only [Option.map_some', Option.some.injEq] at hsome2
          subst hsome2
          by_cases hri : r = i
          · subst hri
            have h0 : r ∉ l2 :=
              drainGo_not_handed f rest (r :: s) r l2 (List.mem_cons_self r s) hmap
            simp [List.count_cons, List.count_eq_zero.mpr h0]
          · have := ih (i :: s) r l2 hmap
            simpa [List.count_cons, hri] using this

/-- `getNewEmails` keeps dedup-state membership. -/
theorem getNewEmails_mem_fst (f : String → FOutcome) (s ids : List String)
    (r : String) (h : r ∈ s) : r ∈ (getNewEmails f s ids).1 :=
  drainGo_mem_fst f ids s r h

/-- `getNewEmails` never hands out an id already in the dedup state. -/
theorem getNewEmails_not_handed (f : String → FOutcome) (s ids : List String)
    (r : String) (h : r ∈ s) : r ∉ (getNewEmails f s ids).2 := by
  show r ∉ (drainGo f s ids).2.getD []
  rcases hm : (drainGo f s ids).2 with _ | l
  · simp
  · simpa using drainGo_not_handed f ids s r l h hm

/-- Every id `getNewEmails` hands out lands in the final dedup state. -/
theorem getNewEmails_handed_mem (f : String → FOutcome) (s ids : List String)
    (r : String) : r ∈ (getNewEmails f s ids).2 → r ∈ (getNewEmails f s ids).1 := by
  show r ∈ (drainGo f s ids).2.getD [] → r ∈ (drainGo f s ids).1
  rcases hm : (drainGo f s ids).2 with _ | l
  · simp
  · intro hr
    exact drainGo_handed_mem_fst f ids s r l hm (by simpa using hr)

/-- One `getNewEmails` call hands out each id at most once. -/
theorem getNewEmails_count_le_one (f : String → FOutcome) (s ids : List String)
    (r : String) : (getNewEmails f s ids).2.count r ≤ 1 := by
  show ((drainGo f s ids).2.getD []).count r ≤ 1
  rcases hm : (drainGo f s ids).2 with _ | l
  · simp
  · simpa using drainGo_count_le_one f ids s r l hm

/-- Unfolding equation for a run of drain cycles. -/
theorem runDrains_cons (c : (String → FOutcome) × List String)
    (rest : List ((String → FOutcome) × List String)) (s : List String) :
    runDrains (c :: rest) s =
      (getNewEmails c.1 s c.2).2 ++ runDrains rest (getNewEmails c.1 s c.2).1 := rfl

/-- An id in the dedup state is never handed out by any later cycle. -/
theorem runDrains_not_mem :
    ∀ (cycles : List ((String → FOutcome) × List String)) (s : List String)
      (r : String), r ∈ s → r ∉ runDrains cycles s := by
  intro cycles
  induction cycles with
  | nil => intro s r _; simp [runDrains]
  | cons c rest ih =>
    intro s r h
    rw [runDrains_cons]
    intro hmem
    rcases List.mem_append.mp hmem with h1 | h2
    · exact getNewEmails_not_handed c.1 s c.2 r h h1
    · exact ih _ r (getNewEmails_mem_fst c.1 s c.2 r h) h2

/-- Across a whole run, each id is handed to the queue at most once. -/
theorem runDrains_count_le_one :
    ∀ (cycles : List ((String → FOutcome) × List String)) (s : List String)
      (r : String), (runDrains cycles s).count r ≤ 1 := by
  intro cycles
  induction cycles with
  | nil => intro s r; simp [runDrains]
  | cons c rest ih =>
    intro s r
    rw [runDrains_cons, List.count_append]
    by_cases hmem : r ∈ (getNewEmails c.1 s c.2).2
    · have h1 : (getNewEmails c.1 s c.2).2.count r ≤ 1 :=
        getNewEmails_count_le_one c.1 s c.2 r
      have h2 : r ∉ runDrains rest (getNewEmails c.1 s c.2).1 :=
        runDrains_not_mem rest _ r (getNewEmails_handed_mem c.1 s c.2 r hmem)
      have h3 : (runDrains rest (getNewEmails c.1 s c.2).1).count r = 0 :=
        List.count_eq_zero.mpr h2
      omega
    · have h1 : (getNewEmails c.1 s c.2).2.count r = 0 :=
        List.count_eq_zero.mpr hmem
      have h2 := ih (getNewEmails c.1 s c.2).1 r
      omega

/-- The fetch loop issues only fetch actions on the session. -/
theorem fetchActs_only_fetch (f : String → FOutcome) :
    ∀ (ids s : List String) (x : SessAct), x ∈ (fetchActs f s ids).1 →
      ∃ i, x = SessAct.fetch i := by
  intro ids
  induction ids with
  | nil => intro s x hx; simp [fetchActs] at hx
  | cons i rest ih =>
    intro s x hx
    by_cases hi : i ∈ s
    · exact ih s x (by simpa [fetchActs, hi] using hx)
    · cases hf : f i with
      | fail =>
        simp only [fetchActs, if_neg hi, hf] at hx
        rcases List.mem_cons.mp hx with h1 | h2
        · exact ⟨i, h1⟩
        · exact ih s x h2
      | raised =>
        simp only [fetchActs, if_neg hi, hf, List.mem_singleton] at hx
        exact ⟨i, hx⟩
      | ok =>
        simp only [fetchActs, if_neg hi, hf] at hx
        rcases List.mem_cons.mp hx with h1 | h2
        · exact ⟨i, h1⟩
        · exact ih (i :: s) x h2

/-! ## Theorems -/

/-- Claim C2 fails as stated: quantifying over every `PollingState` with
`minInterval ≤ currentInterval ≤ maxInterval` includes negative
intervals, where halving moves the value toward zero and out of the
range.  At `minInterval = maxInterval = currentInterval = -1`, a "found"
adjustment yields `max (-1) (-1/2) = -1/2`, which exceeds
`maxInterval = -1`. -/
theorem c2_counterexample :
    (-1 : ℚ) ≤ -1 ∧ (-1 : ℚ) ≤ -1 ∧
    ¬ ((adjustPollingInterval (-1) (-1) true 0
        { currentInterval := -1, lastEmailTime := 0 }).currentInterval ≤ -1) := by
  refine ⟨le_refl _, le_refl _, ?_⟩
  norm_num [adjustPollingInterval]

/-- Claim C2 (amended with `0 ≤ minInterval`): one adjustment halves the
interval (clamped at `minInterval`) and stamps `lastEmailTime := now` when
emails were found, multiplies it by 1.2 (clamped at `maxInterval`) when
none were found and more than 600 seconds passed since the last activity,
and leaves the state unchanged otherwise; in every case the resulting
interval stays within `[minInterval, maxInterval]`. -/
theorem c2_adjust_interval (minI maxI now : ℚ) (s : PollingState) (found : Bool)
    (h0 : 0 ≤ minI) (h1 : minI ≤ s.currentInterval)
    (h2 : s.currentInterval ≤ maxI) :
    (found = true →
      adjustPollingInterval minI maxI found now s =
        { currentInterval := max minI (s.currentInterval * (1 / 2)),
          lastEmailTime := now }) ∧
    (found = false → now - s.lastEmailTime > 600 →
      adjustPollingInterval minI maxI found now s =
        { currentInterval := min maxI (s.currentInterval * (6 / 5)),
          lastEmailTime := s.lastEmailTime }) ∧
    (found = false → ¬ (now - s.lastEmailTime > 600) →
      adjustPollingInterval minI maxI found now s = s) ∧
    minI ≤ (adjustPollingInterval minI maxI found now s).currentInterval ∧
    (adjustPollingInterval minI maxI found now s).currentInterval ≤ maxI := by
  have hc : 0 ≤ s.currentInterval := le_trans h0 h1
  cases found with
  | true =>
    refine ⟨fun _ => by simp [adjustPollingInterval], by simp, by simp, ?_, ?_⟩
    · simp [adjustPollingInterval]
    · simp only [adjustPollingInterval, if_pos rfl]
      exact max_le (le_trans h1 h2) (by nlinarith)
  | false =>
    by_cases ht : now - s.lastEmailTime > 600
    · refine ⟨by simp, fun _ _ => by simp [adjustPollingInterval, ht], by simp [ht], ?_, ?_⟩
      · simp only [adjustPollingInterval, Bool.false_eq_true, if_neg, if_pos ht]
        exact le_min (le_trans h1 h2) (by nlinarith)
      · simp only [adjustPollingInterval, Bool.false_eq_true, if_neg, if_pos ht]
        exact min_le_left _ _
    · refine ⟨by simp, fun _ h => absurd h ht, fun _ _ => by simp [adjustPollingInterval, ht], ?_, ?_⟩
      · simpa [adjustPollingInterval, ht] using h1
      · simpa [adjustPollingInterval, ht] using h2

/-- Witness for `c2_adjust_interval` at the constructor defaults
(`min = 10`, `max = 300`, starting interval `60`) with emails found. -/
theorem c2_witness :
    adjustPollingInterval defaultMinInterval defaultMaxInterval true 1000
      { currentInterval := defaultStartInterval, lastEmailTime := 0 } =
      { currentInterval := 30, lastEmailTime := 1000 } := by
  have h := c2_adjust_interval defaultMinInterval defaultMaxInterval 1000
    { currentInterval := defaultStartInterval, lastEmailTime := 0 } true
    (by norm_num [defaultMinInterval])
    (by norm_num [defaultMinInterval, defaultStartInterval])
    (by norm_num [defaultMaxInterval, defaultStartInterval])
  rw [h.1 rfl]
  norm_num [defaultMinInterval, defaultStartInterval]

/-- Claim C4 fails as stated: the code prepends `"Re: "` unconditionally
(`zoho_smart_processing.py` line 104), so a subject that already starts
with `"Re:"` becomes `"Re: Re: ..."` instead of staying unchanged. -/
theorem c4_counterexample :
    ("Re:" ++ " Hello" : String) = "Re: Hello" ∧
    (composeReply "me@x.com"
      { subject := "Re: Hello", sender := "a@b.com", messageId := "<id>" }
      "body").subject = "Re: Re: Hello" ∧
    ("Re: Re: Hello" : String) ≠ "Re: Hello" := by
  refine ⟨by decide, rfl, by decide⟩

/-- Claim C4 (amended): the composed reply's subject is always `"Re: "`
followed by the original subject, with no check whether the original
already starts with `"Re:"` — composition is not idempotent. -/
theorem c4_subject_always_prefixed (selfAddr : String) (o : OrigEmail)
    (replyBody : String) :
    (composeReply selfAddr o replyBody).subject = "Re: " ++ o.subject ∧
    (composeReply selfAddr o replyBody).toAddr = o.sender := by
  exact ⟨rfl, rfl⟩

/-- Claim C6 fails as stated: the work queue is created by
`queue.Queue()` with no `maxsize` (`zoho_smart_processing.py` line 31),
i.e. `maxsize = 0`, which Python treats as unbounded — there is no finite
capacity `K` at which a `put` blocks. -/
theorem c6_counterexample :
    ¬ ∃ K : Nat, 0 < K ∧
      PyQueue.putBlocks
        { maxsize := emailQueueInit.maxsize,
          items := List.replicate K 0 } = true := by
  rintro ⟨K, _, hb⟩
  simp [PyQueue.putBlocks, emailQueueInit] at hb

/-- Claim C6 (amended): the WorkItem queue is unbounded
(`queue.Queue()` with the default `maxsize = 0`): a `put` never blocks
for any queue length, and no item is ever dropped — enqueueing a drained
batch appends every message in order. -/
theorem c6_queue_unbounded (items : List Nat) (x : Nat) (batch : List Nat) :
    PyQueue.putBlocks { maxsize := emailQueueInit.maxsize, items := items } = false ∧
    (PyQueue.put { maxsize := emailQueueInit.maxsize, items := items } x).items
      = items ++ [x] ∧
    (enqueueAll { maxsize := emailQueueInit.maxsize, items := items } batch).items
      = items ++ batch := by
  refine ⟨by simp [PyQueue.putBlocks, emailQueueInit], rfl, ?_⟩
  induction batch generalizing items with
  | nil => simp [enqueueAll]
  | cons b bs ih =>
    simp [enqueueAll, PyQueue.put, ih (items ++ [b])]

/-- Claim C8: no error terminates the monitoring process — the worker
exits only on the `None` shutdown sentinel (a failed draft save, an empty
queue and any raised exception all continue the loop), and the polling
loop reacts to an error by a 30-second wait followed by a retry, never by
exiting. -/
theorem c8_errors_never_stop :
    workerStep .sentinel = .exitLoop ∧
    (∀ saveOk : Bool, workerStep (.item saveOk) = .continueLoop) ∧
    workerStep .emptyTimeout = .continueLoop ∧
    workerStep .raised = .continueLoop ∧
    pollStep true = (.continueLoop, 30) ∧
    (∀ e : Bool, (pollStep e).1 = .continueLoop) := by
  refine ⟨rfl, fun _ => rfl, rfl, rfl, rfl, fun e => ?_⟩
  cases e <;> rfl

/-- Claim C9: the code contradicts the claimed fallback.  On a mailbox
where `Drafts` is absent and `DRAFT` exists, `save_reply_as_draft` never
stores the draft in `DRAFT`: the append targets the hardcoded literal
`'Drafts'` (`zoho_smart_processing.py` line 127, `zoho_faiss.py`
line 235), is attempted and fails, and the call returns `False` with no
draft stored anywhere.  With neither folder present the call also
returns `False`, but — contrary to the claimed early error return — the
append is still attempted, because `imaplib`'s `select` returns `NO`
without raising and the except ladder never runs.  Only with `Drafts`
present is a draft stored, in `Drafts`. -/
theorem c9_fallback_append_fails :
    saveReplyAsDraft ["DRAFT"] =
      { ok := false, appendedTo := none, attemptedAppend := true } ∧
    (saveReplyAsDraft ["DRAFT"]).appendedTo ≠ some "DRAFT" ∧
    saveReplyAsDraft [] =
      { ok := false, appendedTo := none, attemptedAppend := true } ∧
    saveReplyAsDraft ["Drafts"] =
      { ok := true, appendedTo := some "Drafts", attemptedAppend := true } := by
  refine ⟨by decide, by decide, by decide, by decide⟩

/-- Claim C3: the `Unsupported` answer to the IDLE command moves the
detector into the fallback-polling mode, and from that mode no sequence
of subsequent events (drains, timeouts, errors, stop) ever returns it to
a mode that issues the await-change primitive — the fallback is permanent
for the rest of the run. -/
theorem c3_fallback_permanent :
    detStep .pushWait .unsupported = .fallbackPoll ∧
    ∀ evs : List DetEvent,
      issuesAwaitChange (evs.foldl detStep .fallbackPoll) = false := by
  refine ⟨rfl, fun evs => ?_⟩
  have key : ∀ (evs : List DetEvent) (s : DetState), s ≠ .pushWait →
      evs.foldl detStep s ≠ .pushWait := by
    intro evs
    induction evs with
    | nil => intro s hs; simpa using hs
    | cons e rest ih =>
      intro s hs
      simp only [List.foldl_cons]
      apply ih
      cases s with
      | pushWait => exact absurd rfl hs
      | fallbackPoll => cases e <;> simp [detStep]
      | stopped => cases e <;> simp [detStep]
  have h := key evs .fallbackPoll (by simp)
  cases hfin : evs.foldl detStep .fallbackPoll with
  | pushWait => exact absurd hfin h
  | fallbackPoll => rfl
  | stopped => rfl

/-- Claim C5 fails as stated over the gmail variant: `select_template` in
`gmail_auto_reply_with_faiss.py` has no empty-body guard, so on an empty
body it invokes the embedding model and returns whichever template is
nearest the empty body's embedding — here (embedding vectors `[0]`,
`[10]`, `[20]` and an encoder sending everything to `[0]`) the first
template rather than the general-purpose default at index 2. -/
theorem c5_counterexample :
    gmailSelectTemplate (fun _ => ([0] : List ℚ)) ["meeting", "support", "general"]
      [[0], [10], [20]] "" = "meeting" ∧
    ("meeting" : String) ≠ "general" ∧
    gmailSelectTemplate (fun _ => ([0] : List ℚ)) ["meeting", "support", "general"]
        [[0], [10], [20]] "" ≠
      gmailSelectTemplate (fun _ => ([20] : List ℚ)) ["meeting", "support", "general"]
        [[0], [10], [20]] "" := by
  refine ⟨?_, by decide, ?_⟩
  · norm_num [gmailSelectTemplate, argminIdx, sqDist]
  · norm_num [gmailSelectTemplate, argminIdx, sqDist]
    decide

/-- Claim C5 (amended to the `zoho_faiss.py` selector, which is the one
implementing the spec): an empty-or-whitespace body yields the designated
default `templates[2]`, independently of the embedding model; any other
body yields the template at the index of minimal squared L2 distance
between the body's embedding and the fixed template embeddings. -/
theorem c5_select_template (templates : List String) (embs : List (List ℚ))
    (encA encB : String → List ℚ) (body : String) :
    (isBlank body = true →
      zohoSelectTemplate encA templates embs body = templates.getD 2 "" ∧
      zohoSelectTemplate encA templates embs body =
        zohoSelectTemplate encB templates embs body) ∧
    (isBlank body = false →
      zohoSelectTemplate encA templates embs body =
        templates.getD (argminIdx (embs.map (sqDist (encA body)))) "" ∧
      ∀ j : Nat, j < embs.length →
        (embs.map (sqDist (encA body))).getD
            (argminIdx (embs.map (sqDist (encA body)))) 0 ≤
          (embs.map (sqDist (encA body))).getD j 0) := by
  constructor
  · intro h
    exact ⟨by simp [zohoSelectTemplate, h], by simp [zohoSelectTemplate, h]⟩
  · intro h
    refine ⟨by simp [zohoSelectTemplate, h], fun j hj => ?_⟩
    exact argminIdx_min _ j (by simpa using hj)

/-- Witness for `c5_select_template`: a whitespace body selects the
default third template, and a non-empty body whose embedding `[5]` is
nearest (squared distance 1) to the second template embedding `[4]`
selects the second template. -/
theorem c5_witness :
    zohoSelectTemplate (fun _ => ([5] : List ℚ)) ["a", "b", "c"]
      [[0], [4], [9]] "  " = "c" ∧
    zohoSelectTemplate (fun _ => ([5] : List ℚ)) ["a", "b", "c"]
      [[0], [4], [9]] "hi" = "b" := by
  constructor
  · have h := (c5_select_template ["a", "b", "c"] [[0], [4], [9]]
      (fun _ => [5]) (fun _ => [5]) "  ").1 (by decide)
    exact h.1.trans (by decide)
  · have h := (c5_select_template ["a", "b", "c"] [[0], [4], [9]]
      (fun _ => [5]) (fun _ => [5]) "hi").2 (by decide)
    exact h.1.trans (by norm_num [argminIdx, sqDist])

/-- Claim C1: a `markIfNew` check-and-insert on a fresh ref succeeds
(returns true and inserts the ref), every subsequent check of a ref
already in the processed set is rejected, and across any whole run of
drain cycles — with arbitrary per-message fetch outcomes, including
failures and exceptions — no message id is ever handed to the reply
pipeline more than once. -/
theorem c1_dedup_exactly_once (ref : String) (s : List String) (h : ref ∉ s) :
    markIfNew ref s = (true, ref :: s) ∧
    (∀ t : List String, ref ∈ t → markIfNew ref t = (false, t)) ∧
    (∀ cycles : List ((String → FOutcome) × List String),
      (runDrains cycles []).count ref ≤ 1) := by
  refine ⟨by simp [markIfNew, h], fun t ht => by simp [markIfNew, ht],
    fun cycles => runDrains_count_le_one cycles [] ref⟩

/-- Witness for `c1_dedup_exactly_once` at ref `"42"`: fresh insert
succeeds, the repeat check is rejected, and a run whose server reports
`"42"` twice hands it out at most once. -/
theorem c1_witness :
    markIfNew "42" [] = (true, ["42"]) ∧
    markIfNew "42" ["42"] = (false, ["42"]) ∧
    (runDrains [(fun _ => FOutcome.ok, ["42", "42"])] []).count "42" ≤ 1 := by
  have h := c1_dedup_exactly_once "42" [] (by simp)
  exact ⟨h.1, h.2.1 ["42"] (by simp), h.2.2 _⟩

/-- Claim C10: when the drain raises partway (here: fetching `b` raises
after `a` was already fetched and marked), `get_new_emails` returns the
empty list while `a` stays in `processed_emails`, and no later drain
cycle of the process lifetime ever hands `a` out — the drain is not
atomic, its state mutations persist on error. -/
theorem c10_drain_not_atomic (a b : String) (hab : a ≠ b) :
    (getNewEmails (raiseAt b) [] [a, b]).2 = [] ∧
    a ∈ (getNewEmails (raiseAt b) [] [a, b]).1 ∧
    ∀ cycles : List ((String → FOutcome) × List String),
      a ∉ runDrains cycles (getNewEmails (raiseAt b) [] [a, b]).1 := by
  have hgo : drainGo (raiseAt b) [] [a, b] = ([a], none) := by
    simp [drainGo, raiseAt, hab, Ne.symm hab]
  refine ⟨?_, ?_, ?_⟩
  · show (drainGo (raiseAt b) [] [a, b]).2.getD [] = []
    rw [hgo]
    rfl
  · show a ∈ (drainGo (raiseAt b) [] [a, b]).1
    rw [hgo]
    simp
  · intro cycles
    apply runDrains_not_mem
    show a ∈ (drainGo (raiseAt b) [] [a, b]).1
    rw [hgo]
    simp

/-- Witness for `c10_drain_not_atomic` at ids `"1"`, `"2"`. -/
theorem c10_witness :
    (getNewEmails (raiseAt "2") [] ["1", "2"]).2 = [] ∧
    "1" ∈ (getNewEmails (raiseAt "2") [] ["1", "2"]).1 ∧
    "1" ∉ runDrains [(fun _ => FOutcome.ok, ["1", "2"])]
      (getNewEmails (raiseAt "2") [] ["1", "2"]).1 := by
  have h := c10_drain_not_atomic "1" "2" (by decide)
  exact ⟨h.1, h.2.1, h.2.2 _⟩

/-- Claim C7 fails as stated: the failed-search exit path of
`get_new_emails` (`zoho_smart_processing.py` lines 153-155) returns
after opening the session without issuing `close` or `logout`. -/
theorem c7_counterexample :
    SessAct.login ∈ getNewEmailsTrace .searchFail ∧
    SessAct.close ∉ getNewEmailsTrace .searchFail ∧
    SessAct.logout ∉ getNewEmailsTrace .searchFail := by
  refine ⟨by decide, by decide, by decide⟩

/-- Claim C7 (amended): the session is closed and logged out on the
normal-completion path of `get_new_emails`, but on the exception path
(mid-drain raise), and on the failed-search path, the call returns with
neither `close` nor `logout`; `zoho_faiss.py`'s `save_reply_as_draft`
likewise tears the session down only when the `Drafts` folder exists —
its missing-`Drafts` paths return without teardown. -/
theorem c7_teardown_only_on_success (f : String → FOutcome)
    (ids folders : List String) :
    ((fetchActs f [] ids).2 = false →
      SessAct.close ∈ getNewEmailsTrace (.run f ids) ∧
      SessAct.logout ∈ getNewEmailsTrace (.run f ids)) ∧
    ((fetchActs f [] ids).2 = true →
      SessAct.close ∉ getNewEmailsTrace (.run f ids) ∧
      SessAct.logout ∉ getNewEmailsTrace (.run f ids)) ∧
    SessAct.close ∉ getNewEmailsTrace .searchFail ∧
    ("Drafts" ∈ folders →
      SessAct.close ∈ saveDraftTraceFaiss folders ∧
      SessAct.logout ∈ saveDraftTraceFaiss folders) ∧
    ("Drafts" ∉ folders → SessAct.close ∉ saveDraftTraceFaiss folders) := by
  refine ⟨?_, ?_, by decide, ?_, ?_⟩
  · intro hab
    constructor <;> simp [getNewEmailsTrace, hab]
  · intro hab
    constructor <;>
    · simp only [getNewEmailsTrace, hab, if_pos, List.append_nil,
        List.mem_append, List.mem_cons, List.not_mem_nil]
      push_neg
      refine ⟨⟨by simp, by simp, by simp, by simp⟩, fun hmem => ?_⟩
      rcases fetchActs_only_fetch f ids [] _ hmem with ⟨i, hi⟩
      simp at hi
  · intro hD
    constructor <;> simp [saveDraftTraceFaiss, hD]
  · intro hD
    by_cases hd2 : "DRAFT" ∈ folders <;>
      simp [saveDraftTraceFaiss, hD, hd2]

/-- Witness for `c7_teardown_only_on_success`: a clean one-message drain
closes and logs out; the same drain with a raising fetch does not; a
mailbox with `Drafts` is torn down by the draft save, one with only
`DRAFT` is not. -/
theorem c7_witness :
    SessAct.close ∈ getNewEmailsTrace (.run (fun _ => FOutcome.ok) ["1"]) ∧
    SessAct.close ∉ getNewEmailsTrace (.run (raiseAt "1") ["1"]) ∧
    SessAct.close ∈ saveDraftTraceFaiss ["Drafts"] ∧
    SessAct.close ∉ saveDraftTraceFaiss ["DRAFT"] := by
  have h1 := c7_teardown_only_on_success (fun _ => FOutcome.ok) ["1"] ["Drafts"]
  have h2 := c7_teardown_only_on_success (raiseAt "1") ["1"] ["DRAFT"]
  refine ⟨(h1.1 (by decide)).1, (h2.2.1 ?_).1,
    (h1.2.2.2.1 (by decide)).1, h2.2.2.2.2 (by decide)⟩
  show (fetchActs (raiseAt "1") [] ["1"]).2 = true
  decide

end EmailRouting
